import Mathlib

/-!
Shallow embedding of the signup-form application:
the form data model, the validation engine (`validateForm` in
`SignupForm.tsx`), the controller's input-mutation and submit handlers,
the `StorageManager` persistence layer, and the `ImageStorage` batch
image-save logic.  JavaScript strings are modelled as Lean `String`s
(lists of characters), JS `Date` values by their calendar fields, the
key-value store by typed cells under the two fixed keys, and fallible
asynchronous calls by `Except`-returning functions whose failures are
injected through explicit fault environments.
-/

/-- The characters matched by the JavaScript regex class `\s`
(space, tab, line feed, vertical tab, form feed, carriage return). -/
def jsSpace (c : Char) : Bool :=
  c = ' ' || c = '\t' || c = '\n' || c = '\x0b' || c = '\x0c' || c = '\r'

/-- JavaScript `String.prototype.trim`: strip leading and trailing
whitespace characters. -/
def jsTrim (s : String) : String :=
  let l := s.data.dropWhile jsSpace
  String.mk ((l.reverse.dropWhile jsSpace).reverse)

/-- JavaScript `String.prototype.length` (code points; the source only
handles strings where this agrees with UTF-16 length). -/
def jsLength (s : String) : Nat := s.data.length

/-- A character of the regex class `[^\s@]`: neither whitespace nor `@`. -/
def atomChar (c : Char) : Bool := !jsSpace c && c ≠ '@'

/-- ASCII lowercase letter, the JS regex class `[a-z]`. -/
def asciiLower (c : Char) : Bool := 'a' ≤ c && c ≤ 'z'

/-- ASCII uppercase letter, the JS regex class `[A-Z]`. -/
def asciiUpper (c : Char) : Bool := 'A' ≤ c && c ≤ 'Z'

/-- ASCII digit, the JS regex class `\d`. -/
def asciiDigit (c : Char) : Bool := '0' ≤ c && c ≤ '9'

/-- Backtracking matcher for `p+` followed by a continuation `k`:
consume one `p`-character, then either hand the rest to `k` or keep
consuming.  This is the existential (regex) semantics of `p+`. -/
def plusThen (p : Char → Bool) (k : List Char → Bool) : List Char → Bool
  | [] => false
  | c :: cs => p c && (k cs || plusThen p k cs)

/-- Matcher for a literal character followed by a continuation. -/
def charThen (c : Char) (k : List Char → Bool) : List Char → Bool
  | [] => false
  | x :: xs => x = c && k xs

/-- `validateEmail` from `SignupForm.tsx`: the anchored regex
`/^[^\s@]+@[^\s@]+\.[^\s@]+$/` applied with `test`, written as the
sequence of its five elements (`List.isEmpty` is the `$` anchor). -/
def validateEmail (email : String) : Bool :=
  plusThen atomChar
    (charThen '@'
      (plusThen atomChar
        (charThen '.'
          (plusThen atomChar List.isEmpty))))
    email.data

/-- A JS `Date` value, reduced to the calendar fields the source reads
(`getFullYear`) and serialises. -/
structure JSDate where
  year : Int
  month : Nat
  day : Nat
deriving DecidableEq, Repr

/-- Left-pad the decimal rendering of `n` with zeros to width `w`. -/
def natPad (n w : Nat) : String :=
  let s := toString n
  String.mk (List.replicate (w - s.length) '0') ++ s

/-- JS `Date.prototype.toISOString`, on the modelled calendar fields
(times in the model are midnight UTC). -/
def dateToISOString (d : JSDate) : String :=
  natPad d.year.toNat 4 ++ "-" ++ natPad d.month 2 ++ "-" ++ natPad d.day 2
    ++ "T00:00:00.000Z"

/-- The draft form record (`FormData` in `SignupForm.tsx`). -/
structure FormData where
  fullName : String
  email : String
  password : String
  confirmPassword : String
  bio : String
  country : String
  gender : String
  acceptTerms : Bool
  hobbies : List String
  dateOfBirth : Option JSDate
deriving DecidableEq, Repr

/-- The initial draft: all strings empty, no hobbies, terms not
accepted, no date of birth. -/
def emptyFormData : FormData :=
  { fullName := "", email := "", password := "", confirmPassword := ""
  , bio := "", country := "", gender := "", acceptTerms := false
  , hobbies := [], dateOfBirth := none }

/-- One call to the controller's update operation: the dynamic
`[name]: value` assignment of `handleInputChange`, with the value typed
per field as at the call sites in `SignupForm.tsx`. -/
inductive FieldUpdate where
  | fullName (v : String)
  | email (v : String)
  | password (v : String)
  | confirmPassword (v : String)
  | bio (v : String)
  | country (v : String)
  | gender (v : String)
  | acceptTerms (v : Bool)
  | hobbies (v : List String)
  | dateOfBirth (v : Option JSDate)
deriving DecidableEq, Repr

/-- The `name` string passed alongside the value to `handleInputChange`. -/
def FieldUpdate.target : FieldUpdate → String
  | .fullName _ => "fullName"
  | .email _ => "email"
  | .password _ => "password"
  | .confirmPassword _ => "confirmPassword"
  | .bio _ => "bio"
  | .country _ => "country"
  | .gender _ => "gender"
  | .acceptTerms _ => "acceptTerms"
  | .hobbies _ => "hobbies"
  | .dateOfBirth _ => "dateOfBirth"

/-- The spread `{ ...prev, [name]: value }` of `handleInputChange`. -/
def updateField (fd : FormData) : FieldUpdate → FormData
  | .fullName v => { fd with fullName := v }
  | .email v => { fd with email := v }
  | .password v => { fd with password := v }
  | .confirmPassword v => { fd with confirmPassword := v }
  | .bio v => { fd with bio := v }
  | .country v => { fd with country := v }
  | .gender v => { fd with gender := v }
  | .acceptTerms v => { fd with acceptTerms := v }
  | .hobbies v => { fd with hobbies := v }
  | .dateOfBirth v => { fd with dateOfBirth := v }

/-- The error mapping (`FormErrors`): a JS object from field name to
message, modelled as an association list with at most one entry per key. -/
abbrev FormErrors := List (String × String)

/-- Helper building the entries contributed by one field's rule. -/
def entryFor (k : String) : Option String → FormErrors
  | some m => [(k, m)]
  | none => []

/-- JS object update `{ ...prev, [k]: v }`: replace the value at `k`
if the key is present, otherwise add the entry. -/
def setEntry (errs : FormErrors) (k v : String) : FormErrors :=
  if (errs.lookup k).isSome then
    errs.map (fun p => if p.1 = k then (k, v) else p)
  else
    errs ++ [(k, v)]

/-- Truthiness of `errors[name]` in JS: the key is present and its
message is not the empty string. -/
def truthyAt (errs : FormErrors) (k : String) : Bool :=
  match errs.lookup k with
  | some m => m ≠ ""
  | none => false

/-- The full-name rule of `validateForm`. -/
def fullNameError (fd : FormData) : Option String :=
  if jsTrim fd.fullName = "" then some "Full name is required"
  else if jsLength (jsTrim fd.fullName) < 2 then
    some "Full name must be at least 2 characters"
  else none

/-- The email rule of `validateForm`. -/
def emailError (fd : FormData) : Option String :=
  if jsTrim fd.email = "" then some "Email is required"
  else if !validateEmail fd.email then
    some "Please enter a valid email address"
  else none

/-- The password rule of `validateForm`. -/
def passwordError (fd : FormData) : Option String :=
  if fd.password = "" then some "Password is required"
  else if jsLength fd.password < 8 then
    some "Password must be at least 8 characters"
  else if !(fd.password.data.any asciiLower && fd.password.data.any asciiUpper
            && fd.password.data.any asciiDigit) then
    some "Password must contain at least one uppercase letter, one lowercase letter, and one number"
  else none

/-- The confirm-password rule of `validateForm`. -/
def confirmPasswordError (fd : FormData) : Option String :=
  if fd.confirmPassword = "" then some "Please confirm your password"
  else if fd.password ≠ fd.confirmPassword then some "Passwords do not match"
  else none

/-- The bio rule of `validateForm`. -/
def bioError (fd : FormData) : Option String :=
  if jsTrim fd.bio = "" then some "Bio is required"
  else if jsLength (jsTrim fd.bio) < 10 then
    some "Bio must be at least 10 characters"
  else none

/-- The country rule of `validateForm`. -/
def countryError (fd : FormData) : Option String :=
  if fd.country = "" then some "Please select a country" else none

/-- The gender rule of `validateForm`. -/
def genderError (fd : FormData) : Option String :=
  if fd.gender = "" then some "Please select a gender" else none

/-- The terms rule of `validateForm`. -/
def acceptTermsError (fd : FormData) : Option String :=
  if !fd.acceptTerms then some "You must accept the terms and conditions"
  else none

/-- The date-of-birth rule of `validateForm`; `currentYear` is
`new Date().getFullYear()` at the moment of validation. -/
def dateOfBirthError (fd : FormData) (currentYear : Int) : Option String :=
  match fd.dateOfBirth with
  | none => some "Date of birth is required"
  | some d =>
    if currentYear - d.year < 13 then some "You must be at least 13 years old"
    else none

/-- The `newErrors` object built by `validateForm`, entries in the
order the source assigns them. -/
def computeErrors (fd : FormData) (currentYear : Int) : FormErrors :=
  entryFor "fullName" (fullNameError fd)
    ++ entryFor "email" (emailError fd)
    ++ entryFor "password" (passwordError fd)
    ++ entryFor "confirmPassword" (confirmPasswordError fd)
    ++ entryFor "bio" (bioError fd)
    ++ entryFor "country" (countryError fd)
    ++ entryFor "gender" (genderError fd)
    ++ entryFor "acceptTerms" (acceptTermsError fd)
    ++ entryFor "dateOfBirth" (dateOfBirthError fd currentYear)

/-- The controller's in-memory state: the draft and the error mapping. -/
structure ControllerState where
  formData : FormData
  errors : FormErrors
deriving DecidableEq, Repr

/-- `validateForm` as an operation on the controller state: it computes
`newErrors` from the draft snapshot, stores it via `setErrors`, and
returns whether the mapping is empty. -/
def validateForm (s : ControllerState) (currentYear : Int) :
    Bool × ControllerState :=
  let newErrors := computeErrors s.formData currentYear
  (newErrors.isEmpty, { formData := s.formData, errors := newErrors })

/-- `handleInputChange`: update the named field, then set that field's
error entry to the empty string when the current entry is truthy. -/
def handleInputChange (s : ControllerState) (u : FieldUpdate) :
    ControllerState :=
  let fd := updateField s.formData u
  let errs :=
    if truthyAt s.errors u.target then setEntry s.errors u.target ""
    else s.errors
  { formData := fd, errors := errs }

/-- A JavaScript exception (the model keeps no payload). -/
inductive JSError where
  | err
deriving DecidableEq, Repr

/-- The draft as serialised by `saveFormDataToStorage`: the draft's
fields with `dateOfBirth` replaced by its ISO string, or `null`. -/
structure StoredDraft where
  fullName : String
  email : String
  password : String
  confirmPassword : String
  bio : String
  country : String
  gender : String
  acceptTerms : Bool
  hobbies : List String
  dateOfBirth : Option String
deriving DecidableEq, Repr

/-- The `storageData` object built by `saveFormDataToStorage`. -/
def serializeDraft (fd : FormData) : StoredDraft :=
  { fullName := fd.fullName, email := fd.email, password := fd.password
  , confirmPassword := fd.confirmPassword, bio := fd.bio
  , country := fd.country, gender := fd.gender
  , acceptTerms := fd.acceptTerms, hobbies := fd.hobbies
  , dateOfBirth := fd.dateOfBirth.map dateToISOString }

/-- `StoredFormData` from the storage module: one submitted form
record as persisted under the submitted-forms key. -/
structure StoredFormData where
  fullName : String
  email : String
  password : String
  confirmPassword : String
  bio : String
  country : String
  gender : String
  acceptTerms : Bool
  hobbies : List String
  dateOfBirth : Option String
  resume : Option String
  submittedAt : String
deriving DecidableEq, Repr

/-- The content persisted under one key: a well-formed serialised value
of the key's shape, or bytes on which `JSON.parse` throws. -/
inductive Cell (α : Type) where
  | val (v : α)
  | corrupt
deriving DecidableEq, Repr

/-- The key-value store restricted to the two keys the program uses:
`signupFormData` (the draft) and `submittedForms` (the list). -/
structure Store where
  draftCell : Option (Cell StoredDraft)
  formsCell : Option (Cell (List StoredFormData))
deriving DecidableEq, Repr

/-- Fault injection for the AsyncStorage calls of one execution:
whether each get/set/remove on each key succeeds or throws.  A failed
write or remove leaves the store unchanged. -/
structure FaultEnv where
  getDraftOk : Bool
  getFormsOk : Bool
  setDraftOk : Bool
  setFormsOk : Bool
  removeDraftOk : Bool
deriving DecidableEq, Repr

/-- The environment in which every storage call succeeds. -/
def allOk : FaultEnv :=
  { getDraftOk := true, getFormsOk := true, setDraftOk := true
  , setFormsOk := true, removeDraftOk := true }

namespace StorageManager

/-- `StorageManager.getSubmittedForms` at the typed-cell level: read the
list key; a missing key, a throwing read, or content `JSON.parse`
rejects all degrade to the empty list (the `catch` branch). -/
def getSubmittedForms (env : FaultEnv) (st : Store) : List StoredFormData :=
  if !env.getFormsOk then []
  else
    match st.formsCell with
    | none => []
    | some .corrupt => []
    | some (.val l) => l

/-- `StorageManager.clearFormData`: remove the draft key; a failing
remove is logged and rethrown. -/
def clearFormData (env : FaultEnv) (st : Store) :
    Except JSError Unit × Store :=
  if env.removeDraftOk then (.ok (), { st with draftCell := none })
  else (.error .err, st)

/-- `StorageManager.saveCompletedRegistration`: read the submitted list
(degrading to empty), append the new record, overwrite the list key,
then clear the draft key; any thrown error is logged and rethrown. -/
def saveCompletedRegistration (env : FaultEnv) (st : Store)
    (data : StoredFormData) : Except JSError Unit × Store :=
  let existingForms := getSubmittedForms env st
  let updatedForms := existingForms ++ [data]
  if env.setFormsOk then
    let st₁ := { st with formsCell := some (.val updatedForms) }
    clearFormData env st₁
  else (.error .err, st)

end StorageManager

/-- `saveFormDataToStorage` in `SignupForm.tsx`: serialise the draft and
overwrite the draft key; a failing write is caught and only logged, so
the function never throws and a failed write leaves the store as it was. -/
def saveFormDataToStorage (env : FaultEnv) (fd : FormData) (st : Store) :
    Store :=
  if env.setDraftOk then { st with draftCell := some (.val (serializeDraft fd)) }
  else st

/-- The `formattedData` object built by `handleSubmit`: the draft with
`dateOfBirth` as a date-only string (`toISOString().split('T')[0]`) and
`submittedAt` stamped with the current time. -/
structure FormattedSubmission where
  fullName : String
  email : String
  password : String
  confirmPassword : String
  bio : String
  country : String
  gender : String
  acceptTerms : Bool
  hobbies : List String
  dateOfBirth : Option String
  submittedAt : String
deriving DecidableEq, Repr

/-- Build `formattedData` from the draft at submission time `now`. -/
def formatSubmission (fd : FormData) (now : String) : FormattedSubmission :=
  { fullName := fd.fullName, email := fd.email, password := fd.password
  , confirmPassword := fd.confirmPassword, bio := fd.bio
  , country := fd.country, gender := fd.gender
  , acceptTerms := fd.acceptTerms, hobbies := fd.hobbies
  , dateOfBirth := fd.dateOfBirth.map
      (fun d => (((dateToISOString d).splitOn "T").headD ""))
  , submittedAt := now }

/-- The observable outcome of one `handleSubmit` call: the controller
state after validation, the resulting store, the `formattedData` the
success branch logs (if reached), and which toast was shown. -/
structure SubmitResult where
  state : ControllerState
  store : Store
  logged : Option FormattedSubmission
  toastSuccess : Bool
deriving DecidableEq, Repr

/-- `handleSubmit` in `SignupForm.tsx`: run `validateForm`; when the
error mapping is empty, build `formattedData`, write the (unformatted)
draft to the draft key via `saveFormDataToStorage`, and show the success
toast; otherwise show the error toast. -/
def handleSubmit (env : FaultEnv) (currentYear : Int) (now : String)
    (s : ControllerState) (st : Store) : SubmitResult :=
  let r := validateForm s currentYear
  if r.1 then
    { state := r.2
    , store := saveFormDataToStorage env s.formData st
    , logged := some (formatSubmission s.formData now)
    , toastSuccess := true }
  else
    { state := r.2, store := st, logged := none, toastSuccess := false }

namespace RawKV

/-- Oracle for one execution of the reading operations at the raw-string
level: the result of `getItem` on each key and of `JSON.parse` on any
string, with `δ` the parse result type at the draft key and `σ` the
element type at the list key. -/
structure Env (δ σ : Type) where
  getDraftItem : Except JSError (Option String)
  getFormsItem : Except JSError (Option String)
  parseDraft : String → Except JSError δ
  parseForms : String → Except JSError (List σ)

/-- `StorageManager.getFormData`: read the draft key; the body runs in a
`try` whose `catch` returns `null`, and a `null` or empty (falsy) stored
string also yields `null` without parsing. -/
def getFormData (env : Env δ σ) : Except JSError (Option δ) :=
  match env.getDraftItem with
  | .error _ => .ok none
  | .ok none => .ok none
  | .ok (some s) =>
    if s = "" then .ok none
    else
      match env.parseDraft s with
      | .error _ => .ok none
      | .ok v => .ok (some v)

/-- `StorageManager.getSubmittedForms` at the raw-string level: read the
list key; the `catch` branch and the falsy cases return `[]`. -/
def getSubmittedForms (env : Env δ σ) : Except JSError (List σ) :=
  match env.getFormsItem with
  | .error _ => .ok []
  | .ok none => .ok []
  | .ok (some s) =>
    if s = "" then .ok []
    else
      match env.parseForms s with
      | .error _ => .ok []
      | .ok l => .ok l

end RawKV

namespace ImageStorage

/-- `CapturedImage` from `ImageStorage.tsx` (`mimeType` embeds the
source's `type` field). -/
structure CapturedImage where
  name : String
  uri : String
  mimeType : String
  size : Nat
  width : Option Nat
  height : Option Nat
  capturedAt : String
deriving DecidableEq, Repr

/-- The platform document directory (an opaque location constant). -/
def documentDirectory : String := "file:///data/"

/-- `IMAGE_DIRECTORY`: the application-owned image directory. -/
def imageDirectory : String := documentDirectory ++ "captured_images/"

/-- Fault injection for the file-system calls: whether the copy from a
given source to a given destination succeeds.  `ensureDirectoryExists`
catches all its own errors, so it never influences the result. -/
structure FSEnv where
  copyOk : String → String → Bool

/-- `ImageStorage.saveImage`: copy the source file to
`IMAGE_DIRECTORY/name` and return the new path; a failing copy is
logged and rethrown. -/
def saveImage (env : FSEnv) (imageUri imageName : String) :
    Except JSError String :=
  let newPath := imageDirectory ++ imageName
  if env.copyOk imageUri newPath then .ok newPath else .error .err

/-- The aggregate observable behaviour of `Promise.all` over a list of
fallible per-item operations: the list of results when every item
succeeds, a rejection as soon as any item fails. -/
def promiseAll (f : α → Except JSError β) : List α → Except JSError (List β)
  | [] => .ok []
  | x :: xs =>
    match f x, promiseAll f xs with
    | .ok y, .ok ys => .ok (y :: ys)
    | .error e, _ => .error e
    | .ok _, .error e => .error e

/-- `ImageStorage.saveImages`: save every image, substituting the
permanent path into each record; a single failure rejects the whole
batch (`Promise.all`), and the `catch` rethrows it. -/
def saveImages (env : FSEnv) (images : List CapturedImage) :
    Except JSError (List CapturedImage) :=
  promiseAll (fun image =>
    (saveImage env image.uri image.name).map
      (fun savedUri => { image with uri := savedUri })) images

end ImageStorage

/-- First-occurrence split: `splitAtFirst c l = some (u, v)` when
`l = u ++ c :: v` with `c ∉ u`, and `none` when `c ∉ l`. -/
def splitAtFirst (c : Char) : List Char → Option (List Char × List Char)
  | [] => none
  | x :: xs =>
    if x = c then some ([], xs)
    else (splitAtFirst c xs).map (fun p => (x :: p.1, p.2))

/-- Last-occurrence split: `splitAtLast c l = some (u, v)` when
`l = u ++ c :: v` with `c ∉ v`, and `none` when `c ∉ l`. -/
def splitAtLast (c : Char) : List Char → Option (List Char × List Char)
  | [] => none
  | x :: xs =>
    match splitAtLast c xs with
    | some (p, q) => some (x :: p, q)
    | none => if x = c then some ([], xs) else none

/-- Modelled from the spec: the email pattern exactly as the spec words
it — at least one non-space, non-`@` character before the `@`, at least
one non-space, non-`@` character between the `@` and the LAST `.`, and
at least one character after the last `.`. -/
def emailClaimPattern (s : String) : Bool :=
  match splitAtFirst '@' s.data with
  | none => false
  | some (u, v) =>
    u.any atomChar &&
      (match splitAtLast '.' v with
       | none => false
       | some (w, x) => w.any atomChar && !x.isEmpty)

/-- The set of strings the source regex
`/^[^\s@]+@[^\s@]+\.[^\s@]+$/` accepts, stated declaratively: the
string decomposes as one-or-more non-space non-`@` characters, `@`,
one-or-more such characters, `.`, one-or-more such characters (the
middle and final segments may themselves contain further dots). -/
def emailDecomp (s : String) : Prop :=
  ∃ a b c : List Char,
    s.data = a ++ '@' :: (b ++ '.' :: c) ∧
    a ≠ [] ∧ b ≠ [] ∧ c ≠ [] ∧
    (∀ ch ∈ a, atomChar ch) ∧ (∀ ch ∈ b, atomChar ch) ∧
    (∀ ch ∈ c, atomChar ch)

/-- A draft differing from the initial one only in its password. -/
def pwDraft (p : String) : FormData := { emptyFormData with password := p }

/-- A draft differing from the initial one only in its email. -/
def emailDraft (e : String) : FormData := { emptyFormData with email := e }

/-- A concrete draft on which every validation rule passes
(for the year 2024). -/
def goodDraft : FormData :=
  { fullName := "John Doe", email := "a@b.co", password := "GoodPass1"
  , confirmPassword := "GoodPass1", bio := "I like formal methods."
  , country := "us", gender := "male", acceptTerms := true, hobbies := []
  , dateOfBirth := some ⟨2000, 1, 1⟩ }

/-- A concrete store: no draft saved, an empty submitted list. -/
def demoStore : Store := { draftCell := none, formsCell := some (.val []) }

/-- A concrete submitted record. -/
def demoSubmitted : StoredFormData :=
  { fullName := "John Doe", email := "a@b.co", password := "GoodPass1"
  , confirmPassword := "GoodPass1", bio := "I like formal methods."
  , country := "us", gender := "male", acceptTerms := true, hobbies := []
  , dateOfBirth := some "2000-01-01", resume := none
  , submittedAt := "2024-06-01T12:00:00.000Z" }

/-- A concrete submission timestamp. -/
def demoNow : String := "2024-06-01T12:00:00.000Z"

/-- A concrete error mapping holding one entry under `email`. -/
def demoErrors : FormErrors := [("email", "Email is required")]

/-- A concrete captured image record. -/
def demoImage : ImageStorage.CapturedImage :=
  { name := "photo1.jpg", uri := "file:///cache/camera/photo1.jpg"
  , mimeType := "image/jpeg", size := 1024, width := some 640
  , height := some 480, capturedAt := "2024-06-01T12:00:00.000Z" }

/-- A read environment whose draft key holds unparseable bytes and whose
list key is missing. -/
def envReadFault : RawKV.Env Unit Unit :=
  { getDraftItem := .ok (some "not json")
  , getFormsItem := .ok none
  , parseDraft := fun _ => .error .err
  , parseForms := fun _ => .ok [] }

/-- A file-system environment in which every copy fails. -/
def envCopyFault : ImageStorage.FSEnv := { copyOk := fun _ _ => false }

theorem lookup_append (g : String) (l₁ l₂ : FormErrors) :
    List.lookup g (l₁ ++ l₂) = (List.lookup g l₁).or (List.lookup g l₂) := by
  induction l₁ with
  | nil => simp
  | cons p t ih =>
    cases hp : g == p.1 <;> simp [List.lookup, hp, ih]

theorem lookup_entryFor_ne {g k : String} (h : g ≠ k) (o : Option String) :
    List.lookup g (entryFor k o) = none := by
  cases o <;> simp [entryFor, List.lookup, beq_false_of_ne h]

theorem lookup_entryFor_self (k : String) (o : Option String) :
    List.lookup k (entryFor k o) = o := by
  cases o <;> simp [entryFor, List.lookup]

theorem lookup_email (fd : FormData) (y : Int) :
    List.lookup "email" (computeErrors fd y) = emailError fd := by
  simp [computeErrors, lookup_append, lookup_entryFor_ne, lookup_entryFor_self]

theorem lookup_password (fd : FormData) (y : Int) :
    List.lookup "password" (computeErrors fd y) = passwordError fd := by
  simp [computeErrors, lookup_append, lookup_entryFor_ne, lookup_entryFor_self]

theorem lookup_dateOfBirth (fd : FormData) (y : Int) :
    List.lookup "dateOfBirth" (computeErrors fd y) = dateOfBirthError fd y := by
  simp [computeErrors, lookup_append, lookup_entryFor_ne, lookup_entryFor_self]

theorem lookup_map_overwrite {g k : String} (h : g ≠ k) (v : String) :
    ∀ errs : FormErrors,
      List.lookup g (errs.map (fun p => if p.1 = k then (k, v) else p))
        = List.lookup g errs
  | [] => rfl
  | (a, b) :: t => by
    rw [List.map_cons]
    by_cases hak : a = k
    · subst hak
      rw [if_pos rfl, List.lookup_cons, List.lookup_cons,
        beq_false_of_ne h]
      exact lookup_map_overwrite h v t
    · rw [if_neg hak, List.lookup_cons, List.lookup_cons]
      cases hg : g == a
      · exact lookup_map_overwrite h v t
      · rfl

theorem lookup_setEntry_ne {g k : String} (h : g ≠ k) (v : String)
    (errs : FormErrors) :
    List.lookup g (setEntry errs k v) = List.lookup g errs := by
  unfold setEntry
  split
  · exact lookup_map_overwrite h v errs
  · rw [lookup_append]
    simp [List.lookup, beq_false_of_ne h]

theorem lookup_map_overwrite_self (k v : String) :
    ∀ errs : FormErrors, (errs.lookup k).isSome = true →
      List.lookup k (errs.map (fun p => if p.1 = k then (k, v) else p))
        = some v
  | (a, b) :: t, h => by
    rw [List.map_cons]
    by_cases hak : a = k
    · subst hak
      rw [if_pos rfl, List.lookup_cons, beq_self_eq_true]
    · have hka : (k == a) = false := beq_false_of_ne fun e => hak e.symm
      rw [List.lookup_cons, hka] at h
      rw [if_neg hak, List.lookup_cons, hka]
      exact lookup_map_overwrite_self k v t h

theorem lookup_setEntry_self (k v : String) (errs : FormErrors)
    (h : (errs.lookup k).isSome = true) :
    List.lookup k (setEntry errs k v) = some v := by
  unfold setEntry
  rw [if_pos h]
  exact lookup_map_overwrite_self k v errs h

theorem charThen_iff (c : Char) (k : List Char → Bool) (l : List Char) :
    charThen c k l = true ↔ ∃ r, l = c :: r ∧ k r = true := by
  cases l with
  | nil => simp [charThen]
  | cons x xs =>
    simp only [charThen, Bool.and_eq_true, decide_eq_true_eq]
    constructor
    · rintro ⟨rfl, hk⟩
      exact ⟨xs, rfl, hk⟩
    · rintro ⟨r, heq, hk⟩
      cases heq
      exact ⟨rfl, hk⟩

theorem plusThen_iff (p : Char → Bool) (k : List Char → Bool) :
    ∀ l, (plusThen p k l = true ↔
      ∃ a r, l = a ++ r ∧ a ≠ [] ∧ (∀ c ∈ a, p c = true) ∧ k r = true)
  | [] => by
    simp only [plusThen, Bool.false_eq_true, false_iff]
    rintro ⟨a, r, heq, hne, -, -⟩
    exact hne (List.append_eq_nil.mp heq.symm).1
  | c :: cs => by
    simp only [plusThen, Bool.and_eq_true, Bool.or_eq_true]
    constructor
    · rintro ⟨hc, hk | hrec⟩
      · exact ⟨[c], cs, rfl, by simp, by simpa using hc, hk⟩
      · obtain ⟨a, r, rfl, hne, hall, hk⟩ := (plusThen_iff p k cs).mp hrec
        refine ⟨c :: a, r, rfl, by simp, ?_, hk⟩
        intro x hx
        rcases List.mem_cons.mp hx with rfl | hx'
        · exact hc
        · exact hall x hx'
    · rintro ⟨a, r, heq, hne, hall, hk⟩
      cases a with
      | nil => exact absurd rfl hne
      | cons a₀ a' =>
        obtain ⟨rfl, rfl⟩ : c = a₀ ∧ cs = a' ++ r := by
          simpa using heq
        refine ⟨hall _ (by simp), ?_⟩
        cases a' with
        | nil => exact Or.inl hk
        | cons b bs =>
          exact Or.inr ((plusThen_iff p k _).mpr
            ⟨b :: bs, r, rfl, by simp, fun x hx => hall x (by simp [hx]), hk⟩)

theorem validateEmail_iff (s : String) :
    validateEmail s = true ↔ emailDecomp s := by
  unfold validateEmail emailDecomp
  rw [plusThen_iff]
  constructor
  · rintro ⟨a, r, heq, ha, hpa, hk⟩
    rw [charThen_iff] at hk
    obtain ⟨r₂, rfl, hk⟩ := hk
    rw [plusThen_iff] at hk
    obtain ⟨b, r₃, rfl, hb, hpb, hk⟩ := hk
    rw [charThen_iff] at hk
    obtain ⟨r₄, rfl, hk⟩ := hk
    rw [plusThen_iff] at hk
    obtain ⟨c, r₅, rfl, hc, hpc, hk⟩ := hk
    have : r₅ = [] := by simpa using hk
    subst this
    exact ⟨a, b, c, by simpa using heq, ha, hb, hc, hpa, hpb, hpc⟩
  · rintro ⟨a, b, c, heq, ha, hb, hc, hpa, hpb, hpc⟩
    refine ⟨a, '@' :: (b ++ '.' :: c), heq, ha, hpa, ?_⟩
    rw [charThen_iff]
    refine ⟨b ++ '.' :: c, rfl, ?_⟩
    rw [plusThen_iff]
    refine ⟨b, '.' :: c, rfl, hb, hpb, ?_⟩
    rw [charThen_iff]
    refine ⟨c, rfl, ?_⟩
    rw [plusThen_iff]
    exact ⟨c, [], by simp, hc, hpc, by simp⟩

theorem promiseAll_fail {α β : Type} (f : α → Except JSError β) :
    ∀ l : List α, (∃ x ∈ l, ∃ e, f x = .error e) →
      ImageStorage.promiseAll f l = .error .err
  | [], h => by simp at h
  | x :: xs, h => by
    obtain ⟨a, hmem, e, hfa⟩ := h
    cases e
    rcases List.mem_cons.mp hmem with rfl | hmem'
    · unfold ImageStorage.promiseAll
      rw [hfa]
    · have hrec := promiseAll_fail f xs ⟨a, hmem', .err, hfa⟩
      unfold ImageStorage.promiseAll
      rw [hrec]
      rcases hfx : f x with e | y
      · cases e; rfl
      · rfl

theorem promiseAll_ok_length {α β : Type} (f : α → Except JSError β) :
    ∀ (l : List α) (r : List β), ImageStorage.promiseAll f l = .ok r →
      r.length = l.length
  | [], r, h => by
    simp only [ImageStorage.promiseAll, Except.ok.injEq] at h
    rw [← h]
    rfl
  | x :: xs, r, h => by
    unfold ImageStorage.promiseAll at h
    rcases hfx : f x with e | y <;> rw [hfx] at h
    · exact absurd h (by simp)
    · rcases hrec : ImageStorage.promiseAll f xs with e | ys <;> rw [hrec] at h
      · exact absurd h (by simp)
      · obtain rfl : y :: ys = r := by simpa using h
        simp [promiseAll_ok_length f xs ys hrec]

/-- C1, counterexample to the claim as stated: `goodDraft` is a draft on
which the Validation Engine returns an empty mapping, yet submitting it
over a store holding an empty submitted list leaves the submitted-forms
list exactly as it was (nothing is appended) and leaves a draft stored
under the draft key (the draft is not cleared — it is written). -/
theorem c1_submit_counterexample :
    (validateForm ⟨goodDraft, []⟩ 2024).1 = true ∧
    demoStore.formsCell = some (.val []) ∧
    (handleSubmit allOk 2024 demoNow ⟨goodDraft, []⟩ demoStore).store.formsCell
      = some (.val []) ∧
    (handleSubmit allOk 2024 demoNow ⟨goodDraft, []⟩ demoStore).store.draftCell
      ≠ none := by
  decide

/-- C1, amended: for every draft on which the Validation Engine returns
an empty Error Mapping, the submit operation builds the formatted record
(dateOfBirth serialized date-only, submittedAt stamped with the current
time) but only logs it; what it persists is the unformatted draft,
overwritten under the draft key via `saveFormDataToStorage` — the
submitted-forms list is left unchanged and the draft key is not cleared
(`StorageManager.saveCompletedRegistration`, which would append and
clear, is never invoked by the submit path). -/
theorem c1_submit_writes_draft_key_only (env : FaultEnv) (y : Int)
    (now : String) (s : ControllerState) (st : Store)
    (h : (computeErrors s.formData y).isEmpty = true) :
    (handleSubmit env y now s st).logged
      = some (formatSubmission s.formData now) ∧
    (handleSubmit env y now s st).store
      = saveFormDataToStorage env s.formData st ∧
    (handleSubmit env y now s st).store.formsCell = st.formsCell ∧
    (handleSubmit env y now s st).toastSuccess = true := by
  have hsub : handleSubmit env y now s st =
      { state := ⟨s.formData, computeErrors s.formData y⟩
      , store := saveFormDataToStorage env s.formData st
      , logged := some (formatSubmission s.formData now)
      , toastSuccess := true } := by
    unfold handleSubmit validateForm
    simp [h]
  rw [hsub]
  refine ⟨rfl, rfl, ?_, rfl⟩
  unfold saveFormDataToStorage
  cases henv : env.setDraftOk <;> simp

theorem c1_submit_writes_draft_key_only_witness :
    (handleSubmit allOk 2024 demoNow ⟨goodDraft, []⟩ demoStore).logged
      = some (formatSubmission goodDraft demoNow) ∧
    (handleSubmit allOk 2024 demoNow ⟨goodDraft, []⟩ demoStore).store
      = saveFormDataToStorage allOk goodDraft demoStore ∧
    (handleSubmit allOk 2024 demoNow ⟨goodDraft, []⟩ demoStore).store.formsCell
      = demoStore.formsCell ∧
    (handleSubmit allOk 2024 demoNow ⟨goodDraft, []⟩ demoStore).toastSuccess
      = true :=
  c1_submit_writes_draft_key_only allOk 2024 demoNow ⟨goodDraft, []⟩ demoStore
    (by decide)

/-- C2: for every starting store state and submitted record, if the
append-and-overwrite write of `saveCompletedRegistration` fails, the
whole operation fails (the error is rethrown to the caller) and the
content stored under the draft key is unchanged — the draft is never
cleared on that failure. -/
theorem c2_commit_failure_preserves_draft
    (env : FaultEnv) (st : Store) (data : StoredFormData)
    (h : env.setFormsOk = false) :
    (StorageManager.saveCompletedRegistration env st data).1 = .error .err ∧
    (StorageManager.saveCompletedRegistration env st data).2.draftCell
      = st.draftCell := by
  unfold StorageManager.saveCompletedRegistration
  rw [h]
  exact ⟨rfl, rfl⟩

theorem c2_commit_failure_preserves_draft_witness :
    (StorageManager.saveCompletedRegistration
        { allOk with setFormsOk := false } demoStore demoSubmitted).1
      = .error .err ∧
    (StorageManager.saveCompletedRegistration
        { allOk with setFormsOk := false } demoStore demoSubmitted).2.draftCell
      = demoStore.draftCell :=
  c2_commit_failure_preserves_draft _ _ _ rfl

/-- C3, counterexample to the claim as stated: with an error recorded
under `email`, updating the email field leaves `email` present as a key
of the Error Mapping — its value becomes the empty string, it is not
absent. -/
theorem c3_update_counterexample :
    List.lookup "email" demoErrors = some "Email is required" ∧
    List.lookup "email"
        (handleInputChange ⟨emptyFormData, demoErrors⟩ (.email "x")).errors
      = some "" ∧
    List.lookup "email"
        (handleInputChange ⟨emptyFormData, demoErrors⟩ (.email "x")).errors
      ≠ none := by
  decide

/-- C3, amended: for every field name f that has an entry in the current
Error Mapping, the update operation on f (with any new value) overwrites
that entry with the empty string — the falsy value the view layer treats
as "no error" — rather than removing the key; f remains a key of the
mapping with value `""`. -/
theorem c3_update_blanks_error_entry (s : ControllerState) (u : FieldUpdate)
    (h : (s.errors.lookup u.target).isSome = true) :
    List.lookup u.target (handleInputChange s u).errors = some "" := by
  unfold handleInputChange
  dsimp only
  cases ht : truthyAt s.errors u.target
  · rw [if_neg (by simp [ht])]
    unfold truthyAt at ht
    obtain ⟨m, hm⟩ := Option.isSome_iff_exists.mp h
    rw [hm] at ht ⊢
    simpa using ht
  · rw [if_pos rfl]
    exact lookup_setEntry_self _ _ _ h

theorem c3_update_blanks_error_entry_witness :
    List.lookup "email"
        (handleInputChange ⟨emptyFormData, demoErrors⟩ (.email "y")).errors
      = some "" :=
  c3_update_blanks_error_entry ⟨emptyFormData, demoErrors⟩ (.email "y")
    (by decide)

/-- C4: the Validation Engine is a pure function of the draft snapshot
(with the current year an explicit, fixed parameter): running
`validateForm` leaves the draft unchanged, and running it a second time
on the resulting state yields the identical Error Mapping and the same
validity verdict.  (The operation takes no store argument at all: it
touches no stored state.) -/
theorem c4_validation_pure_idempotent (s : ControllerState) (y : Int) :
    (validateForm s y).2.formData = s.formData ∧
    (validateForm (validateForm s y).2 y).2.errors
      = (validateForm s y).2.errors ∧
    (validateForm (validateForm s y).2 y).1 = (validateForm s y).1 :=
  ⟨rfl, rfl, rfl⟩

/-- C5: the password rule yields the required-message when the password
is empty, otherwise the too-short message when its length is below 8,
and only once the length check passes yields the weak-message exactly
when a lowercase letter, an uppercase letter or a digit is missing; in
particular "short1A" is flagged too short, "alllowercase1" weak, and
"GoodPass1" passes. -/
theorem c5_password_rule (fd : FormData) (y : Int) :
    (fd.password = "" →
      List.lookup "password" (computeErrors fd y)
        = some "Password is required") ∧
    (fd.password ≠ "" → jsLength fd.password < 8 →
      List.lookup "password" (computeErrors fd y)
        = some "Password must be at least 8 characters") ∧
    (fd.password ≠ "" → ¬ jsLength fd.password < 8 →
      (List.lookup "password" (computeErrors fd y)
          = some "Password must contain at least one uppercase letter, one lowercase letter, and one number"
        ↔ ¬(fd.password.data.any asciiLower = true ∧
            fd.password.data.any asciiUpper = true ∧
            fd.password.data.any asciiDigit = true))) ∧
    List.lookup "password" (computeErrors (pwDraft "short1A") 2024)
      = some "Password must be at least 8 characters" ∧
    List.lookup "password" (computeErrors (pwDraft "alllowercase1") 2024)
      = some "Password must contain at least one uppercase letter, one lowercase letter, and one number" ∧
    List.lookup "password" (computeErrors (pwDraft "GoodPass1") 2024)
      = none := by
  refine ⟨?_, ?_, ?_, by decide, by decide, by decide⟩
  · intro h
    rw [lookup_password]
    simp [passwordError, h]
  · intro h₁ h₂
    rw [lookup_password]
    simp [passwordError, h₁, h₂]
  · intro h₁ h₂
    rw [lookup_password]
    unfold passwordError
    rw [if_neg h₁, if_neg h₂]
    cases hs : (fd.password.data.any asciiLower &&
        fd.password.data.any asciiUpper && fd.password.data.any asciiDigit)
    · have hne : ¬(fd.password.data.any asciiLower = true ∧
          fd.password.data.any asciiUpper = true ∧
          fd.password.data.any asciiDigit = true) := by
        rintro ⟨hA, hB, hC⟩
        rw [hA, hB, hC] at hs
        simp at hs
      exact iff_of_true rfl hne
    · have h₃ := hs
      rw [Bool.and_eq_true, Bool.and_eq_true] at h₃
      exact iff_of_false (by simp) (not_not_intro ⟨h₃.1.1, h₃.1.2, h₃.2⟩)

theorem c5_password_rule_witness :
    List.lookup "password" (computeErrors (pwDraft "") 2024)
      = some "Password is required" :=
  (c5_password_rule (pwDraft "") 2024).1 rfl

/-- C6, counterexample to the claim as stated: on the input "a@b.c." the
spec's pattern — which demands at least one character after the LAST dot
— does not match, so the claim predicts an entry under `email`; the
source regex accepts the string (its domain segment may itself contain
dots, so the separator dot need not be the last one) and the Validation
Engine records no email error. -/
theorem c6_email_counterexample :
    emailClaimPattern "a@b.c." = false ∧
    validateEmail "a@b.c." = true ∧
    List.lookup "email" (computeErrors (emailDraft "a@b.c.") 2024) = none := by
  decide

/-- C6, amended: the email rule yields the required-message when the
trimmed email is empty, and otherwise yields an error exactly when the
email cannot be decomposed as one-or-more non-space non-`@` characters,
`@`, one-or-more such characters, `.`, one-or-more such characters
(the dot need not be the last one of the string); in particular
"a@b.co" produces no email error while "no-at-sign" and "a@b" each
produce an entry under `email`. -/
theorem c6_email_rule (fd : FormData) (y : Int) :
    (jsTrim fd.email = "" →
      List.lookup "email" (computeErrors fd y) = some "Email is required") ∧
    (jsTrim fd.email ≠ "" →
      (List.lookup "email" (computeErrors fd y) = none ↔ emailDecomp fd.email)) ∧
    List.lookup "email" (computeErrors (emailDraft "a@b.co") 2024) = none ∧
    (List.lookup "email" (computeErrors (emailDraft "no-at-sign") 2024)).isSome
      = true ∧
    (List.lookup "email" (computeErrors (emailDraft "a@b") 2024)).isSome
      = true := by
  refine ⟨?_, ?_, by decide, by decide, by decide⟩
  · intro h
    rw [lookup_email]
    simp [emailError, h]
  · intro h
    rw [lookup_email]
    unfold emailError
    rw [if_neg h, ← validateEmail_iff]
    cases hv : validateEmail fd.email <;> simp [hv]

theorem c6_email_rule_witness : emailDecomp "a@b.co" :=
  ((c6_email_rule (emailDraft "a@b.co") 2024).2.1 (by decide)).mp (by decide)

/-- C7: for every draft with a present dateOfBirth, the rule computes
the age as current year minus birth year, with no month or day
adjustment, and flags too-young exactly when the difference is below 13;
a birth year of currentYear − 13 is accepted, currentYear − 12 is
rejected. -/
theorem c7_dateOfBirth_rule (fd : FormData) (d : JSDate) (y : Int) :
    (List.lookup "dateOfBirth"
        (computeErrors { fd with dateOfBirth := some d } y)
      = if y - d.year < 13 then some "You must be at least 13 years old"
        else none) ∧
    List.lookup "dateOfBirth"
        (computeErrors { fd with dateOfBirth := some ⟨y - 13, d.month, d.day⟩ } y)
      = none ∧
    (List.lookup "dateOfBirth"
        (computeErrors { fd with dateOfBirth := some ⟨y - 12, d.month, d.day⟩ } y)).isSome
      = true := by
  refine ⟨?_, ?_, ?_⟩ <;> rw [lookup_dateOfBirth]
  · rfl
  · show (if y - (y - 13) < 13 then
        some "You must be at least 13 years old" else none) = none
    rw [if_neg (by omega)]
  · show (if y - (y - 12) < 13 then
        some "You must be at least 13 years old" else none).isSome = true
    rw [if_pos (by omega)]
    rfl

/-- C8: the reading operations degrade instead of erroring — both reads
always return an ok result for every environment; a missing draft key or
a draft whose bytes fail to parse yields absent, and a missing or
unparseable submitted list yields the empty sequence. -/
theorem c8_reads_degrade (δ σ : Type) (env : RawKV.Env δ σ) :
    (∃ v, RawKV.getFormData env = .ok v) ∧
    (∃ l, RawKV.getSubmittedForms env = .ok l) ∧
    (env.getDraftItem = .ok none → RawKV.getFormData env = .ok none) ∧
    (∀ str e, env.getDraftItem = .ok (some str) →
      env.parseDraft str = .error e → RawKV.getFormData env = .ok none) ∧
    (env.getFormsItem = .ok none → RawKV.getSubmittedForms env = .ok []) ∧
    (∀ str e, env.getFormsItem = .ok (some str) →
      env.parseForms str = .error e →
      RawKV.getSubmittedForms env = .ok []) := by
  refine ⟨?_, ?_, ?_, ?_, ?_, ?_⟩
  · unfold RawKV.getFormData
    rcases env.getDraftItem with e | j
    · exact ⟨none, rfl⟩
    · rcases j with _ | str
      · exact ⟨none, rfl⟩
      · by_cases hstr : str = ""
        · exact ⟨none, by simp [hstr]⟩
        · rcases hp : env.parseDraft str with e | v
          · exact ⟨none, by simp [hstr, hp]⟩
          · exact ⟨some v, by simp [hstr, hp]⟩
  · unfold RawKV.getSubmittedForms
    rcases env.getFormsItem with e | j
    · exact ⟨[], rfl⟩
    · rcases j with _ | str
      · exact ⟨[], rfl⟩
      · by_cases hstr : str = ""
        · exact ⟨[], by simp [hstr]⟩
        · rcases hp : env.parseForms str with e | l
          · exact ⟨[], by simp [hstr, hp]⟩
          · exact ⟨l, by simp [hstr, hp]⟩
  · intro h
    unfold RawKV.getFormData
    rw [h]
  · intro str e h hp
    unfold RawKV.getFormData
    rw [h]
    by_cases hstr : str = ""
    · simp [hstr]
    · simp [hstr, hp]
  · intro h
    unfold RawKV.getSubmittedForms
    rw [h]
  · intro str e h hp
    unfold RawKV.getSubmittedForms
    rw [h]
    by_cases hstr : str = ""
    · simp [hstr]
    · simp [hstr, hp]

theorem c8_reads_degrade_witness :
    RawKV.getFormData envReadFault = .ok none ∧
    RawKV.getSubmittedForms envReadFault = .ok [] :=
  ⟨(c8_reads_degrade Unit Unit envReadFault).2.2.2.1 "not json" .err rfl rfl,
   (c8_reads_degrade Unit Unit envReadFault).2.2.2.2.1 rfl⟩

/-- C9: the batch image save is all-or-nothing — if the copy of any
single image fails, `saveImages` returns a failure, and whenever it
returns a list that list has one updated record per input record (never
a partial or truncated list). -/
theorem c9_saveImages_all_or_nothing (env : ImageStorage.FSEnv)
    (images : List ImageStorage.CapturedImage) :
    ((∃ img ∈ images,
        env.copyOk img.uri (ImageStorage.imageDirectory ++ img.name) = false) →
      ImageStorage.saveImages env images = .error .err) ∧
    (∀ l, ImageStorage.saveImages env images = .ok l →
      l.length = images.length) := by
  constructor
  · rintro ⟨img, hmem, hfail⟩
    unfold ImageStorage.saveImages
    refine promiseAll_fail _ images ⟨img, hmem, .err, ?_⟩
    simp [ImageStorage.saveImage, hfail, Except.map]
  · intro l h
    exact promiseAll_ok_length _ images l h

theorem c9_saveImages_all_or_nothing_witness :
    ImageStorage.saveImages envCopyFault [demoImage] = .error .err :=
  (c9_saveImages_all_or_nothing envCopyFault [demoImage]).1
    ⟨demoImage, List.mem_singleton.mpr rfl, rfl⟩

/-- C10: the update operation is frame-preserving — every draft field
other than the updated one keeps its value, and every Error Mapping
entry under a key other than the updated field's name is unchanged. -/
theorem c10_update_frame (s : ControllerState) (u : FieldUpdate) :
    (∀ g, g ≠ u.target →
      List.lookup g (handleInputChange s u).errors
        = List.lookup g s.errors) ∧
    (u.target ≠ "fullName" →
      (handleInputChange s u).formData.fullName = s.formData.fullName) ∧
    (u.target ≠ "email" →
      (handleInputChange s u).formData.email = s.formData.email) ∧
    (u.target ≠ "password" →
      (handleInputChange s u).formData.password = s.formData.password) ∧
    (u.target ≠ "confirmPassword" →
      (handleInputChange s u).formData.confirmPassword
        = s.formData.confirmPassword) ∧
    (u.target ≠ "bio" →
      (handleInputChange s u).formData.bio = s.formData.bio) ∧
    (u.target ≠ "country" →
      (handleInputChange s u).formData.country = s.formData.country) ∧
    (u.target ≠ "gender" →
      (handleInputChange s u).formData.gender = s.formData.gender) ∧
    (u.target ≠ "acceptTerms" →
      (handleInputChange s u).formData.acceptTerms = s.formData.acceptTerms) ∧
    (u.target ≠ "hobbies" →
      (handleInputChange s u).formData.hobbies = s.formData.hobbies) ∧
    (u.target ≠ "dateOfBirth" →
      (handleInputChange s u).formData.dateOfBirth
        = s.formData.dateOfBirth) := by
  have herr : ∀ g, g ≠ u.target →
      List.lookup g (handleInputChange s u).errors = List.lookup g s.errors := by
    intro g hg
    unfold handleInputChange
    dsimp only
    cases ht : truthyAt s.errors u.target
    · rw [if_neg (by simp [ht])]
    · rw [if_pos rfl]
      exact lookup_setEntry_ne hg _ _
  refine ⟨herr, ?_, ?_, ?_, ?_, ?_, ?_, ?_, ?_, ?_, ?_⟩ <;>
    cases u <;> simp [handleInputChange, updateField, FieldUpdate.target]

theorem c10_update_frame_witness :
    List.lookup "bio"
        (handleInputChange ⟨emptyFormData, demoErrors⟩ (.email "x")).errors
      = List.lookup "bio" demoErrors ∧
    (handleInputChange ⟨emptyFormData, demoErrors⟩ (.email "x")).formData.fullName
      = emptyFormData.fullName :=
  ⟨(c10_update_frame ⟨emptyFormData, demoErrors⟩ (.email "x")).1 "bio" (by decide),
   (c10_update_frame ⟨emptyFormData, demoErrors⟩ (.email "x")).2.1 (by decide)⟩
